import Mathlib

/-!
Verification of the `nearmon` NFT contract (`src/lib.rs`) against its
natural-language specification.

Embedding conventions:
* NEAR contract calls run single-threaded and atomically; a panic aborts the
  whole call and none of its storage writes are committed.  Each public method
  is therefore embedded as a function `Contract → Except Err Contract`:
  `.ok s` is a completed call committing state `s`, `.error e` is a panic with
  the given message class, after which the pre-state persists (`commit`).
* `UnorderedMap`/`UnorderedSet`/`TreeMap`-style NEAR collections are embedded
  by value as association lists / duplicate-free lists; `insert` replaces an
  existing key in place, `UnorderedSet.insert` is a no-op when the element is
  already present, and removal is modelled value-wise (NEAR's swap-remove
  changes iteration order, which no claim depends on).
* Machine integers (`u64`, `u128`) are `Nat` with explicit range checks where
  the source parses or overflows: `parse_u64` models `str::parse::<u64>` (only
  decimal digits, value below `2 ^ 64`) and `natToString` models `u64`'s
  decimal `Display`.
* `env::*` host values (timestamp, caller ids, deposit, random seed) are an
  explicit `Env` record passed to each call.
-/

/-- NEAR account ids, kept abstract as strings. -/
abbrev AccountId := String

/-- Token ids: decimal strings produced by the allocator. -/
abbrev TokenId := String

/-- Panic classes of the contract: each constructor corresponds to one panic /
assert message in `src/lib.rs` (or an `unwrap` on a missing value). -/
inductive Err where
  /-- `assert_eq!(caller_id, self.owner_id, "Unauthorized")` in `add_metadata`. -/
  | unauthorized
  /-- `panic!("The evolve time is not fullfiled")` in `nft_evolve`. -/
  | cooldownNotElapsed
  /-- `assert_eq!(owner_id, predecessor, "You are not the Token owner")`. -/
  | notTokenOwner
  /-- `panic!("You have reach the maximum level of your monster")`. -/
  | maxLevel
  /-- `assert!(required_cost <= attached_deposit, ...)` in `refund_deposit`. -/
  | insufficientDeposit
  /-- `unwrap()` / `expect()` on a missing map entry or field. -/
  | notFound
  /-- `parse::<u64>().unwrap()` failure on a non-numeric string. -/
  | parseFailure
  /-- `u64` increment overflow in `increment_token_id` (spec §4.2: fatal). -/
  | overflow
deriving DecidableEq

deriving instance DecidableEq for Except

section AssocList

variable {α : Type} {β : Type} [DecidableEq α]

/-- Lookup in an association list (embeds `UnorderedMap::get`). -/
def lookupAL : List (α × β) → α → Option β
  | [], _ => none
  | (k', v) :: t, k => if k' = k then some v else lookupAL t k

/-- Insert into an association list, replacing an existing binding in place
(embeds `UnorderedMap::insert`). -/
def insertAL : List (α × β) → α → β → List (α × β)
  | [], k, v => [(k, v)]
  | (k', v') :: t, k, v =>
    if k' = k then (k, v) :: t else (k', v') :: insertAL t k v

/-- Remove a key from an association list (embeds `UnorderedMap::remove`). -/
def removeAL (l : List (α × β)) (k : α) : List (α × β) :=
  l.filter (fun p => p.1 ≠ k)

/-- Insert into a duplicate-free list (embeds `UnorderedSet::insert`): a no-op
when an identical element is already present, otherwise pushed at the end. -/
def setInsert (l : List α) (a : α) : List α :=
  if a ∈ l then l else l ++ [a]

/-- Remove an element from a duplicate-free list (embeds `UnorderedSet::remove`
value-wise). -/
def eraseElem (l : List α) (a : α) : List α :=
  l.filter (fun x => x ≠ a)

@[simp] theorem lookupAL_nil (k : α) : lookupAL ([] : List (α × β)) k = none := rfl

theorem lookupAL_cons (k' : α) (v : β) (t : List (α × β)) (k : α) :
    lookupAL ((k', v) :: t) k = if k' = k then some v else lookupAL t k := rfl

@[simp] theorem lookupAL_insertAL_self (l : List (α × β)) (k : α) (v : β) :
    lookupAL (insertAL l k v) k = some v := by
  induction l with
  | nil => simp [insertAL, lookupAL]
  | cons p t ih =>
    by_cases h : p.1 = k
    · simp [insertAL, lookupAL, h]
    · simpa [insertAL, lookupAL, h] using ih

theorem lookupAL_insertAL_ne (l : List (α × β)) {k k' : α} (v : β) (h : k' ≠ k) :
    lookupAL (insertAL l k v) k' = lookupAL l k' := by
  induction l with
  | nil => simp [insertAL, lookupAL, Ne.symm h]
  | cons p t ih =>
    by_cases hp : p.1 = k
    · subst hp
      simp [insertAL, lookupAL, Ne.symm h]
    · simp only [insertAL, if_neg hp, lookupAL]
      by_cases hp' : p.1 = k'
      · simp [hp']
      · simp [hp', ih]

@[simp] theorem lookupAL_removeAL_self (l : List (α × β)) (k : α) :
    lookupAL (removeAL l k) k = none := by
  induction l with
  | nil => rfl
  | cons p t ih =>
    by_cases h : p.1 = k
    · simpa [removeAL, h] using ih
    · simpa [removeAL, lookupAL, h] using ih

theorem lookupAL_removeAL_ne (l : List (α × β)) {k k' : α} (h : k' ≠ k) :
    lookupAL (removeAL l k) k' = lookupAL l k' := by
  induction l with
  | nil => rfl
  | cons p t ih =>
    simp only [removeAL, List.filter_cons, ne_eq, decide_not] at ih ⊢
    by_cases hp : p.1 = k
    · simp [hp, lookupAL, Ne.symm h, ih]
    · simp [hp, lookupAL, ih]

theorem insertAL_insertAL_self (l : List (α × β)) (k : α) (v w : β) :
    insertAL (insertAL l k v) k w = insertAL l k w := by
  induction l with
  | nil => simp [insertAL]
  | cons p t ih =>
    by_cases h : p.1 = k
    · simp [insertAL, h]
    · simp [insertAL, h, ih]

@[simp] theorem mem_setInsert_self (l : List α) (a : α) : a ∈ setInsert l a := by
  by_cases h : a ∈ l <;> simp [setInsert, h]

theorem mem_setInsert (l : List α) (a b : α) :
    a ∈ setInsert l b ↔ a ∈ l ∨ a = b := by
  by_cases h : b ∈ l
  · simp only [setInsert, if_pos h]
    constructor
    · exact Or.inl
    · rintro (ha | rfl) <;> [exact ha; exact h]
  · simp [setInsert, if_neg h]

theorem setInsert_of_mem (l : List α) {a : α} (h : a ∈ l) : setInsert l a = l := by
  simp [setInsert, h]

theorem mem_eraseElem (l : List α) (a b : α) :
    a ∈ eraseElem l b ↔ a ∈ l ∧ a ≠ b := by
  simp [eraseElem, List.mem_filter]

@[simp] theorem not_mem_eraseElem_self (l : List α) (a : α) : a ∉ eraseElem l a := by
  simp [mem_eraseElem]

end AssocList

section Decimal

/-- Decimal digits of `n`, most significant first (fuel-based so that the
kernel can evaluate it; `natDigits` always supplies enough fuel). -/
def natDigitsAux : Nat → Nat → List Nat
  | 0, _ => []
  | fuel + 1, n => if n < 10 then [n] else natDigitsAux fuel (n / 10) ++ [n % 10]

/-- Decimal digits of `n`, most significant first. -/
def natDigits (n : Nat) : List Nat := natDigitsAux (n + 1) n

/-- Decimal rendering of an unsigned integer; embeds `u64::to_string()`. -/
def natToString (n : Nat) : String :=
  String.mk ((natDigits n).map (fun d => Char.ofNat (48 + d)))

/-- One decimal digit of a character, if any. -/
def charDigit (c : Char) : Option Nat :=
  if 48 ≤ c.toNat ∧ c.toNat ≤ 57 then some (c.toNat - 48) else none

/-- Parse every character as a decimal digit. -/
def parseChars : List Char → Option (List Nat)
  | [] => some []
  | c :: cs =>
    match charDigit c, parseChars cs with
    | some d, some ds => some (d :: ds)
    | _, _ => none

/-- Fold a digit list (most significant first) into a number. -/
def parseDigits : List Nat → Nat → Nat
  | [], acc => acc
  | d :: ds, acc => parseDigits ds (acc * 10 + d)

/-- Embeds `str::parse::<u64>()`: all-decimal, non-empty, value below `2 ^ 64`
(a leading `+`, which Rust would also accept, never occurs in this contract's
strings). -/
def parse_u64 (s : String) : Option Nat :=
  if s.data.isEmpty then none
  else
    match parseChars s.data with
    | none => none
    | some ds =>
      let v := parseDigits ds 0
      if v < 2 ^ 64 then some v else none

theorem natDigitsAux_fuel (f g n : Nat) (hf : n < f) (hg : n < g) :
    natDigitsAux f n = natDigitsAux g n := by
  induction f generalizing g n with
  | zero => omega
  | succ f ih =>
    match g, hg with
    | g + 1, hg =>
      by_cases h : n < 10
      · simp [natDigitsAux, h]
      · have hd : n / 10 < n := Nat.div_lt_self (by omega) (by omega)
        simp only [natDigitsAux, if_neg h]
        rw [ih (n / 10) (g := g) (by omega) (by omega)]

theorem natDigits_lt {n : Nat} (h : n < 10) : natDigits n = [n] := by
  simp [natDigits, natDigitsAux, h]

theorem natDigits_ge {n : Nat} (h : 10 ≤ n) :
    natDigits n = natDigits (n / 10) ++ [n % 10] := by
  have hd : n / 10 < n := Nat.div_lt_self (by omega) (by omega)
  have h1 : natDigitsAux (n + 1) n
      = if n < 10 then [n] else natDigitsAux n (n / 10) ++ [n % 10] := rfl
  show natDigitsAux (n + 1) n = natDigitsAux (n / 10 + 1) (n / 10) ++ [n % 10]
  rw [h1, if_neg (by omega : ¬ n < 10),
    natDigitsAux_fuel n (n / 10 + 1) (n / 10) (by omega) (by omega)]

theorem natDigits_all_lt (n : Nat) : ∀ d ∈ natDigits n, d < 10 := by
  induction n using Nat.strong_induction_on with
  | _ n ih =>
    by_cases h : n < 10
    · simp [natDigits_lt h, h]
    · rw [natDigits_ge (by omega)]
      intro d hd
      rcases List.mem_append.mp hd with hd | hd
      · exact ih (n / 10) (Nat.div_lt_self (by omega) (by omega)) d hd
      · simp only [List.mem_singleton] at hd
        subst hd
        omega

theorem natDigits_ne_nil (n : Nat) : natDigits n ≠ [] := by
  by_cases h : n < 10
  · simp [natDigits_lt h]
  · simp [natDigits_ge (by omega : 10 ≤ n)]

theorem parseDigits_append (a b : List Nat) (acc : Nat) :
    parseDigits (a ++ b) acc = parseDigits b (parseDigits a acc) := by
  induction a generalizing acc with
  | nil => rfl
  | cons d ds ih => simp [parseDigits, ih]

theorem parseDigits_natDigits (n : Nat) : parseDigits (natDigits n) 0 = n := by
  induction n using Nat.strong_induction_on with
  | _ n ih =>
    by_cases h : n < 10
    · simp [natDigits_lt h, parseDigits]
    · rw [natDigits_ge (by omega), parseDigits_append,
        ih (n / 10) (Nat.div_lt_self (by omega) (by omega))]
      simp only [parseDigits]
      omega

theorem charDigit_ofNat {d : Nat} (h : d < 10) :
    charDigit (Char.ofNat (48 + d)) = some d := by
  interval_cases d <;> rfl

theorem parseChars_digits (l : List Nat) (h : ∀ d ∈ l, d < 10) :
    parseChars (l.map (fun d => Char.ofNat (48 + d))) = some l := by
  induction l with
  | nil => rfl
  | cons d ds ih =>
    have hd : d < 10 := h d (by simp)
    simp only [List.map_cons, parseChars, charDigit_ofNat hd,
      ih (fun x hx => h x (by simp [hx]))]

theorem parse_natToString {n : Nat} (h : n < 2 ^ 64) :
    parse_u64 (natToString n) = some n := by
  have hdata : (natToString n).data = (natDigits n).map (fun d => Char.ofNat (48 + d)) := rfl
  have hne : ¬ ((natDigits n).map (fun d => Char.ofNat (48 + d))).isEmpty = true := by
    simp [List.isEmpty_iff, natDigits_ne_nil n]
  unfold parse_u64
  rw [hdata, if_neg hne, parseChars_digits (natDigits n) (natDigits_all_lt n)]
  simp only [parseDigits_natDigits n]
  rw [if_pos h]

theorem natToString_injOn {a b : Nat} (ha : a < 2 ^ 64) (hb : b < 2 ^ 64)
    (h : natToString a = natToString b) : a = b := by
  have := parse_natToString ha
  rw [h, parse_natToString hb] at this
  exact (Option.some_injective _ this).symm

/-- ASCII lowering of one character. -/
def toLowerChar (c : Char) : Char :=
  if 65 ≤ c.toNat ∧ c.toNat ≤ 90 then Char.ofNat (c.toNat + 32) else c

/-- Embeds `str::to_lowercase()` on the ASCII catalog-type labels this
contract uses (Rust's full-Unicode lowering agrees with ASCII lowering on
them). -/
def strToLower (s : String) : String :=
  String.mk (s.data.map toLowerChar)

end Decimal

/-- Embeds `near_contract_standards::...::TokenMetadata` (NEP-177): all
timestamp-like fields are decimal strings, hashes are kept as opaque strings. -/
structure TokenMetadata where
  title : Option String
  description : Option String
  media : Option String
  media_hash : Option String
  copies : Option Nat
  issued_at : Option String
  expires_at : Option String
  starts_at : Option String
  updated_at : Option String
  extra : Option String
  reference : Option String
  reference_hash : Option String
deriving DecidableEq

/-- Embeds `NFTContractMetadata` (contract-level descriptor; set at
initialization and never mutated by the operations below). -/
structure NFTContractMetadata where
  spec : String
  name : String
  symbol : String
  icon : Option String
  base_uri : Option String
  reference : Option String
  reference_hash : Option String
deriving DecidableEq

/-- Embeds the `NonFungibleToken` ledger struct from
`near_contract_standards`: the four extension maps are `Option`-wrapped
exactly as in the library, and `Contract::new` initializes all of them. -/
structure NFTLedger where
  owner_by_id : List (TokenId × AccountId)
  token_metadata_by_id : Option (List (TokenId × TokenMetadata))
  tokens_per_owner : Option (List (AccountId × List TokenId))
  approvals_by_id : Option (List (TokenId × List (AccountId × Nat)))
  next_approval_id_by_id : Option (List (TokenId × Nat))
deriving DecidableEq

/-- Embeds the `Contract` state struct of `src/lib.rs`. -/
structure Contract where
  owner_id : AccountId
  tokens : NFTLedger
  metadata_per_type : List (String × List TokenMetadata)
  egg_per_token_id : List (TokenId × Nat)
  level_per_token_id : List (TokenId × Nat)
  metadata : NFTContractMetadata
  current_token_id : TokenId
deriving DecidableEq

/-- Host-environment values (`near_sdk::env`) observed by a single call.
`random_seed0` is the first byte of `env::random_seed()` (always 32 bytes on
NEAR, so `get(0).unwrap()` cannot fail); the `% 256` in `get_random_number`
keeps an arbitrary `Nat` within `u8` range. -/
structure Env where
  block_timestamp : Nat
  predecessor_account_id : AccountId
  signer_account_id : AccountId
  attached_deposit : Nat
  random_seed0 : Nat

/-- Embeds the `JsonToken`-like `Token` struct returned by `nft_token`. -/
structure FullToken where
  token_id : TokenId
  owner_id : AccountId
  metadata : Option TokenMetadata
  approved_account_ids : Option (List (AccountId × Nat))
deriving DecidableEq

namespace metadatas

/-- Modelled from the spec: the `metadatas` module (declared by `mod metadatas`
in `src/lib.rs`) is not present under `src/`.  Per spec §4.1 a selection
"returns the template at logical position `index` within the type's set" and
never mutates catalog entries, and per the `% 16 + 1` reduction in
`nft_mint_egg` each stage's static table has 16 one-based entries.  Each entry
is modelled as a distinct base template determined by its stage and index,
with the per-mint stamped fields (`issued_at`, `copies`, `extra`) left empty
here because `get_metadata_per_type` overwrites them. -/
def template (stage idx : Nat) : TokenMetadata :=
  { title := some ("Nearmon stage " ++ natToString stage ++ " variant " ++ natToString idx)
    description := none
    media := some ("nearmon-" ++ natToString stage ++ "-" ++ natToString idx ++ ".png")
    media_hash := none
    copies := none
    issued_at := none
    expires_at := none
    starts_at := none
    updated_at := none
    extra := none
    reference := none
    reference_hash := none }

/-- Modelled from the spec: `metadatas::get_metadata_egg` — the Stage-0 table,
16 one-based entries, failing for an out-of-range index (spec §4.1:
"Fails if the type has never been registered, or `index` is out of bounds"). -/
def get_metadata_egg (i : Nat) : Except Err TokenMetadata :=
  if 1 ≤ i ∧ i ≤ 16 then .ok (template 0 i) else .error .notFound

/-- Modelled from the spec: `metadatas::get_metadata_monster_1` (Stage 1). -/
def get_metadata_monster_1 (i : Nat) : Except Err TokenMetadata :=
  if 1 ≤ i ∧ i ≤ 16 then .ok (template 1 i) else .error .notFound

/-- Modelled from the spec: `metadatas::get_metadata_monster_2` (Stage 2). -/
def get_metadata_monster_2 (i : Nat) : Except Err TokenMetadata :=
  if 1 ≤ i ∧ i ≤ 16 then .ok (template 2 i) else .error .notFound

/-- Modelled from the spec: `metadatas::get_metadata_monster_3` (Stage 3,
terminal). -/
def get_metadata_monster_3 (i : Nat) : Except Err TokenMetadata :=
  if 1 ≤ i ∧ i ≤ 16 then .ok (template 3 i) else .error .notFound

end metadatas

/-- `const MINIMUM_EARLY_DEPOSIT: u128 = 10u128.pow(24)`. -/
def MINIMUM_EARLY_DEPOSIT : Nat := 10 ^ 24

/-- Embeds the free function `refund_deposit`: asserts the attached deposit
covers the flat fee and returns the fire-and-forget refund transfer amount
(`none` when no transfer is issued).  The `Promise` has no effect on contract
state. -/
def refund_deposit (env : Env) : Except Err (Option Nat) :=
  let required_cost := MINIMUM_EARLY_DEPOSIT
  let attached_deposit := env.attached_deposit
  if required_cost ≤ attached_deposit then
    let refund := attached_deposit - required_cost
    .ok (if 1 < refund then some refund else none)
  else .error .insufficientDeposit

/-- Embeds `Contract::get_metadata_per_type`: dispatch on the stage, then stamp
`issued_at = now`, `copies = 1`, `extra = now + 300000` (milliseconds). -/
def get_metadata_per_type (env : Env) (metadata_type : Nat) (metadata_set : Nat) :
    Except Err TokenMetadata :=
  let current := env.block_timestamp / 1000000
  let next := current + 300000
  let base : Except Err TokenMetadata :=
    match metadata_type with
    | 0 => metadatas.get_metadata_egg metadata_set
    | 1 => metadatas.get_metadata_monster_1 metadata_set
    | 2 => metadatas.get_metadata_monster_2 metadata_set
    | 3 => metadatas.get_metadata_monster_3 metadata_set
    | _ => .error .maxLevel
  match base with
  | .error e => .error e
  | .ok md =>
    .ok { md with
      issued_at := some (natToString current)
      copies := some 1
      extra := some (natToString next) }

/-- Embeds `Contract::get_random_number`: the first byte of the random seed. -/
def get_random_number (env : Env) : Nat := env.random_seed0 % 256

/-- Embeds `Contract::increment_token_id`: parse the counter, add one,
re-serialize.  The parse failure is the source's `unwrap`; the overflow case is
modelled from the spec (§4.2: "Fails fatally if ... increment would overflow
the integer width. No wraparound"), since the crate's release overflow profile
is not part of `src/`. -/
def increment_token_id (c : Contract) : Except Err Contract :=
  match parse_u64 c.current_token_id with
  | none => .error .parseFailure
  | some token_id_num =>
    if token_id_num + 1 < 2 ^ 64 then
      .ok { c with current_token_id := natToString (token_id_num + 1) }
    else .error .overflow

/-- Embeds `Contract::add_metadata`: owner-only (checked against the signer),
type normalized to lowercase, set-semantics insert. -/
def add_metadata (env : Env) (c : Contract) (metadata_type : String)
    (metadata : TokenMetadata) : Except Err Contract :=
  let caller_id := env.signer_account_id
  let lower_type := strToLower metadata_type
  if caller_id = c.owner_id then
    let metadata_set := (lookupAL c.metadata_per_type lower_type).getD []
    let metadata_set := setInsert metadata_set metadata
    .ok { c with metadata_per_type := insertAL c.metadata_per_type lower_type metadata_set }
  else .error .unauthorized

/-- Embeds `Contract::nft_mint_egg`. -/
def nft_mint_egg (env : Env) (c0 : Contract) (receiver_id : AccountId) :
    Except Err Contract :=
  match increment_token_id c0 with
  | .error e => .error e
  | .ok c =>
    let metadata_type := 0
    let owner_id := receiver_id
    let metadata_set := get_random_number env % 16 + 1
    match get_metadata_per_type env metadata_type metadata_set with
    | .error e => .error e
    | .ok metadata =>
      let c := { c with tokens := { c.tokens with
        owner_by_id := insertAL c.tokens.owner_by_id c.current_token_id owner_id } }
      let c := { c with
        egg_per_token_id := insertAL c.egg_per_token_id c.current_token_id metadata_set }
      let c := { c with
        level_per_token_id := insertAL c.level_per_token_id c.current_token_id 0 }
      let c := { c with tokens := { c.tokens with
        token_metadata_by_id :=
          c.tokens.token_metadata_by_id.map (fun m => insertAL m c.current_token_id metadata) } }
      let c :=
        match c.tokens.tokens_per_owner with
        | none => c
        | some tokens_per_owner =>
          let token_ids := (lookupAL tokens_per_owner owner_id).getD []
          let token_ids := setInsert token_ids c.current_token_id
          { c with tokens := { c.tokens with
            tokens_per_owner := some (insertAL tokens_per_owner owner_id token_ids) } }
      match refund_deposit env with
      | .error e => .error e
      | .ok _ => .ok c

/-- Embeds `Contract::nft_evolve`, statement for statement in source order:
counter increment; cooldown gate read from the old token's `extra`; ownership
check against the predecessor; approval-record removal; removal of the old id
from the `receiver_id`-keyed owner-index set; metadata removal; species
carry-over; level move; next-stage metadata selection; new-token insertion
under the validated owner; deposit settlement. -/
def nft_evolve (env : Env) (c0 : Contract) (token_id : TokenId)
    (receiver_id : AccountId) : Except Err Contract :=
  match increment_token_id c0 with
  | .error e => .error e
  | .ok c =>
    let gate : Except Err Unit :=
      match c.tokens.token_metadata_by_id with
      | none => .ok ()
      | some temp_metadata =>
        match lookupAL temp_metadata token_id with
        | none => .error .notFound
        | some md =>
          match md.extra with
          | none => .error .notFound
          | some ex =>
            match parse_u64 ex with
            | none => .error .parseFailure
            | some evolve_time =>
              if env.block_timestamp / 1000000 < evolve_time then
                .error .cooldownNotElapsed
              else .ok ()
    match gate with
    | .error e => .error e
    | .ok _ =>
      match lookupAL c.tokens.owner_by_id token_id with
      | none => .error .notFound
      | some owner_id =>
        if owner_id = env.predecessor_account_id then
          let c := { c with tokens := { c.tokens with
            next_approval_id_by_id :=
              c.tokens.next_approval_id_by_id.map (fun m => removeAL m token_id),
            approvals_by_id :=
              c.tokens.approvals_by_id.map (fun m => removeAL m token_id) } }
          let step : Except Err Contract :=
            match c.tokens.tokens_per_owner with
            | none => .ok c
            | some tokens_per_owner =>
              match lookupAL tokens_per_owner receiver_id with
              | none => .error .notFound
              | some token_set =>
                .ok { c with tokens := { c.tokens with
                  tokens_per_owner :=
                    some (insertAL tokens_per_owner receiver_id
                      (eraseElem token_set token_id)) } }
          match step with
          | .error e => .error e
          | .ok c =>
            let c := { c with tokens := { c.tokens with
              token_metadata_by_id :=
                c.tokens.token_metadata_by_id.map (fun m => removeAL m token_id) } }
            match lookupAL c.egg_per_token_id token_id with
            | none => .error .notFound
            | some metadata_set =>
              let c := { c with
                egg_per_token_id :=
                  insertAL c.egg_per_token_id c.current_token_id metadata_set }
              match lookupAL c.level_per_token_id token_id with
              | none => .error .notFound
              | some old_level =>
                let token_level := old_level + 1
                let c := { c with
                  level_per_token_id :=
                    insertAL (removeAL c.level_per_token_id token_id)
                      c.current_token_id token_level }
                match get_metadata_per_type env token_level metadata_set with
                | .error e => .error e
                | .ok metadata =>
                  let c := { c with tokens := { c.tokens with
                    owner_by_id :=
                      insertAL c.tokens.owner_by_id c.current_token_id owner_id } }
                  let c := { c with tokens := { c.tokens with
                    token_metadata_by_id :=
                      c.tokens.token_metadata_by_id.map
                        (fun m => insertAL m c.current_token_id metadata) } }
                  let c :=
                    match c.tokens.tokens_per_owner with
                    | none => c
                    | some tokens_per_owner =>
                      let token_ids := (lookupAL tokens_per_owner owner_id).getD []
                      let token_ids := setInsert token_ids c.current_token_id
                      { c with tokens := { c.tokens with
                        tokens_per_owner :=
                          some (insertAL tokens_per_owner owner_id token_ids) } }
                  match refund_deposit env with
                  | .error e => .error e
                  | .ok _ => .ok c
        else .error .notTokenOwner

/-- Embeds `Contract::nft_token`. -/
def nft_token (c : Contract) (token_id : TokenId) : Except Err (Option FullToken) :=
  match lookupAL c.tokens.owner_by_id token_id with
  | none => .ok none
  | some owner_id =>
    let approved_account_ids :=
      c.tokens.approvals_by_id.map (fun by_id => (lookupAL by_id token_id).getD [])
    match c.tokens.token_metadata_by_id with
    | none => .error .notFound
    | some by_id =>
      match lookupAL by_id token_id with
      | none => .error .notFound
      | some token_metadata =>
        .ok (some { token_id, owner_id, metadata := some token_metadata,
                    approved_account_ids })

/-- The `.map(|token| self.nft_token(token).unwrap()).collect()` loop of
`nft_tokens_for_owner`. -/
def tokensMap (c : Contract) : List TokenId → Except Err (List FullToken)
  | [] => .ok []
  | t :: ts =>
    match nft_token c t with
    | .error e => .error e
    | .ok none => .error .notFound
    | .ok (some tok) =>
      match tokensMap c ts with
      | .error e => .error e
      | .ok rest => .ok (tok :: rest)

/-- Embeds `Contract::nft_tokens_for_owner` (offset and limit both default to
zero when omitted). -/
def nft_tokens_for_owner (c : Contract) (account_id : AccountId)
    (from_index : Option Nat) (limit : Option Nat) : Except Err (List FullToken) :=
  match c.tokens.tokens_per_owner with
  | none => .error .notFound
  | some tokens_per_owner =>
    match lookupAL tokens_per_owner account_id with
    | none => .ok []
    | some token_set =>
      let start := from_index.getD 0
      tokensMap c ((token_set.drop start).take (limit.getD 0))

/-- Embeds `Contract::new`: fresh ledger, empty catalog and side-tables,
counter at `"0"`. -/
def Contract.new (owner_id : AccountId) (metadata : NFTContractMetadata) : Contract :=
  { owner_id
    tokens :=
      { owner_by_id := []
        token_metadata_by_id := some []
        tokens_per_owner := some []
        approvals_by_id := some []
        next_approval_id_by_id := some [] }
    metadata_per_type := []
    egg_per_token_id := []
    level_per_token_id := []
    metadata
    current_token_id := "0" }

/-- The state the NEAR runtime commits after a call: the result state on
success, the untouched pre-state when the call panicked (a panic aborts the
receipt and discards every storage write of the call). -/
def commit (s : Contract) (r : Except Err Contract) : Contract :=
  match r with
  | .ok s' => s'
  | .error _ => s

/-- Run a sequence of `nft_mint_egg` calls, recording each allocated token id
(the id a successful mint binds is the post-increment `current_token_id`).
Returns `none` as soon as one call fails. -/
def runMints (s : Contract) : List (Env × AccountId) → Option (Contract × List TokenId)
  | [] => some (s, [])
  | (e, r) :: ps =>
    match nft_mint_egg e s r with
    | .error _ => none
    | .ok s1 =>
      match runMints s1 ps with
      | none => none
      | some (s2, ids) => some (s2, s1.current_token_id :: ids)

/-- The final state and allocated ids of a successful mint sequence from a
fresh contract (defaulting to the fresh contract itself when a call failed). -/
def mintRun (owner : AccountId) (cm : NFTContractMetadata)
    (ps : List (Env × AccountId)) : Contract × List TokenId :=
  (runMints (Contract.new owner cm) ps).getD (Contract.new owner cm, [])

/-- A plain contract-level descriptor for concrete states. -/
def cm0 : NFTContractMetadata :=
  { spec := "nft-1.0.0", name := "Nearmon", symbol := "NMON", icon := none,
    base_uri := none, reference := none, reference_hash := none }

/-- Metadata of a live token whose cooldown unlock time (`extra`) is `10` ms. -/
def mdEx : TokenMetadata :=
  { metadatas.template 0 5 with
      issued_at := some "0", copies := some 1, extra := some "10" }

/-- A small reachable state: token `"1"` (level 0, species 5) owned by
`"alice"`, counter at `"1"`. -/
def sEx : Contract :=
  { owner_id := "admin"
    tokens :=
      { owner_by_id := [("1", "alice")]
        token_metadata_by_id := some [("1", mdEx)]
        tokens_per_owner := some [("alice", ["1"])]
        approvals_by_id := some []
        next_approval_id_by_id := some [] }
    metadata_per_type := []
    egg_per_token_id := [("1", 5)]
    level_per_token_id := [("1", 0)]
    metadata := cm0
    current_token_id := "1" }

/-- `sEx` with token `"1"` already at the terminal level 3. -/
def sLvl3 : Contract :=
  { sEx with level_per_token_id := [("1", 3)] }

/-- Call context after the cooldown elapsed: `block_timestamp / 10 ^ 6 = 10`,
caller `"alice"`, exactly 1 NEAR attached. -/
def envLate : Env :=
  { block_timestamp := 10000000, predecessor_account_id := "alice",
    signer_account_id := "alice", attached_deposit := 10 ^ 24, random_seed0 := 0 }

/-- Call context before the cooldown elapsed (`block_timestamp = 0`). -/
def envEarly : Env :=
  { envLate with block_timestamp := 0 }

/-- Cooldown not elapsed and only 5 yocto attached. -/
def envEarlyLow : Env :=
  { envLate with block_timestamp := 0, attached_deposit := 5 }

/-- Cooldown elapsed but only 5 yocto attached. -/
def envLateLow : Env :=
  { envLate with attached_deposit := 5 }

/-- Cooldown elapsed, full deposit, but the caller is not the owner. -/
def envWrong : Env :=
  { envLate with
    predecessor_account_id := "mallory"
    signer_account_id := "mallory" }

/-- The state committed by a successful evolve of token `"1"` in `sEx`. -/
def sExAfter : Contract := commit sEx (nft_evolve envLate sEx "1" "alice")


/-- The stamped metadata produced for stage `st`, variant `i`, at time `env`. -/
def stampedTemplate (env : Env) (st i : Nat) : TokenMetadata :=
  { metadatas.template st i with
      issued_at := some (natToString (env.block_timestamp / 1000000))
      copies := some 1
      extra := some (natToString (env.block_timestamp / 1000000 + 300000)) }

theorem get_metadata_stage_zero (env : Env) {i : Nat} (h1 : 1 ≤ i) (h2 : i ≤ 16) :
    get_metadata_per_type env 0 i = .ok (stampedTemplate env 0 i) := by
  simp [get_metadata_per_type, metadatas.get_metadata_egg, h1, h2, stampedTemplate]

theorem get_metadata_stage_one (env : Env) {i : Nat} (h1 : 1 ≤ i) (h2 : i ≤ 16) :
    get_metadata_per_type env 1 i = .ok (stampedTemplate env 1 i) := by
  simp [get_metadata_per_type, metadatas.get_metadata_monster_1, h1, h2, stampedTemplate]

theorem get_metadata_stage_two (env : Env) {i : Nat} (h1 : 1 ≤ i) (h2 : i ≤ 16) :
    get_metadata_per_type env 2 i = .ok (stampedTemplate env 2 i) := by
  simp [get_metadata_per_type, metadatas.get_metadata_monster_2, h1, h2, stampedTemplate]

theorem get_metadata_stage_three (env : Env) {i : Nat} (h1 : 1 ≤ i) (h2 : i ≤ 16) :
    get_metadata_per_type env 3 i = .ok (stampedTemplate env 3 i) := by
  simp [get_metadata_per_type, metadatas.get_metadata_monster_3, h1, h2, stampedTemplate]

theorem get_metadata_stage_four (env : Env) (i : Nat) :
    get_metadata_per_type env (3 + 1) i = .error .maxLevel := rfl

theorem refund_deposit_insufficient {env : Env}
    (h : env.attached_deposit < MINIMUM_EARLY_DEPOSIT) :
    refund_deposit env = .error .insufficientDeposit := by
  simp [refund_deposit, Nat.not_le.mpr h]

theorem refund_deposit_sufficient {env : Env}
    (h : MINIMUM_EARLY_DEPOSIT ≤ env.attached_deposit) :
    refund_deposit env =
      .ok (if 1 < env.attached_deposit - MINIMUM_EARLY_DEPOSIT
        then some (env.attached_deposit - MINIMUM_EARLY_DEPOSIT) else none) := by
  simp [refund_deposit, h]

theorem commit_of_error {s : Contract} {r : Except Err Contract} {e : Err}
    (h : r = .error e) : commit s r = s := by
  rw [h]; rfl

/-- C10: for every account and offset, `nft_tokens_for_owner` with the `limit`
parameter omitted returns the empty list — the default limit is zero, not
unbounded — even when the account owns live tokens. -/
theorem tokens_for_owner_default_limit_empty (s : Contract) (account_id : AccountId)
    (from_index : Option Nat) (tpo : List (AccountId × List TokenId))
    (h : s.tokens.tokens_per_owner = some tpo) :
    nft_tokens_for_owner s account_id from_index none = .ok [] := by
  simp only [nft_tokens_for_owner, h]
  cases hl : lookupAL tpo account_id with
  | none => rfl
  | some token_set => simp [tokensMap]

/-- C10 witness: in `sEx` the account `"alice"` owns the live token `"1"`, yet
the default-limit query returns the empty list. -/
theorem tokens_for_owner_default_limit_empty_witness :
    nft_tokens_for_owner sEx "alice" none none = .ok [] :=
  tokens_for_owner_default_limit_empty sEx "alice" none [("alice", ["1"])] rfl

/-- C8: `add_metadata` is idempotent for identical templates — if a first call
committed `s1`, an identically-parameterized second call (by any signer that
still passes the owner check) commits `s1` again, so the catalog state and in
particular the entry count of that type's set are unchanged. -/
theorem add_metadata_idempotent (env1 env2 : Env) (s s1 : Contract)
    (metadata_type : String) (metadata : TokenMetadata)
    (h1 : add_metadata env1 s metadata_type metadata = .ok s1)
    (h2 : env2.signer_account_id = s1.owner_id) :
    add_metadata env2 s1 metadata_type metadata = .ok s1 := by
  simp only [add_metadata] at h1 ⊢
  by_cases hauth : env1.signer_account_id = s.owner_id
  · rw [if_pos hauth] at h1
    have h1' := Except.ok.inj h1
    subst h1'
    rw [if_pos h2]
    simp [lookupAL_insertAL_self, setInsert_of_mem, insertAL_insertAL_self]
  · rw [if_neg hauth] at h1
    exact absurd h1 (by simp)

/-- The admin signer used for catalog calls in witnesses. -/
def envAdmin : Env :=
  { envLate with
    predecessor_account_id := "admin"
    signer_account_id := "admin" }

/-- A sample catalog template. -/
def mdW : TokenMetadata := metadatas.template 0 1

/-- The state after the owner adds `mdW` under type `"EGG"` in `sEx`. -/
def sCat : Contract := commit sEx (add_metadata envAdmin sEx "EGG" mdW)

/-- C8 witness: adding the identical template a second time re-commits the
same state. -/
theorem add_metadata_idempotent_witness :
    add_metadata envAdmin sCat "EGG" mdW = .ok sCat :=
  add_metadata_idempotent envAdmin envAdmin sEx sCat "EGG" mdW (by decide) (by decide)

/-- C4: an evolve call on a token whose stored cooldown timestamp (the
metadata `extra` field) is strictly greater than the current time fails with
the cooldown error, and the committed post-call state is exactly the pre-call
state (a NEAR panic discards every write of the call, including the counter
increment performed before the gate). -/
theorem evolve_cooldown_error (env : Env) (s : Contract) (token_id : TokenId)
    (receiver_id : AccountId) (n : Nat) (m : List (TokenId × TokenMetadata))
    (md : TokenMetadata) (ex : String) (evolve_time : Nat)
    (hn : parse_u64 s.current_token_id = some n) (hb : n + 1 < 2 ^ 64)
    (hm : s.tokens.token_metadata_by_id = some m)
    (hmd : lookupAL m token_id = some md)
    (hex : md.extra = some ex)
    (hpt : parse_u64 ex = some evolve_time)
    (hcool : env.block_timestamp / 1000000 < evolve_time) :
    nft_evolve env s token_id receiver_id = .error .cooldownNotElapsed
    ∧ commit s (nft_evolve env s token_id receiver_id) = s := by
  have hb2 : n + 1 < 18446744073709551616 := by simpa using hb
  have h1 : nft_evolve env s token_id receiver_id = .error .cooldownNotElapsed := by
    simp [nft_evolve, increment_token_id, hn, hb2, hm, hmd, hex, hpt, hcool]
  exact ⟨h1, commit_of_error h1⟩

/-- C4 witness: evolving token `"1"` of `sEx` at time `0`, before its unlock
time `10`, panics with the cooldown error and commits nothing. -/
theorem evolve_cooldown_error_witness :
    nft_evolve envEarly sEx "1" "bob" = .error .cooldownNotElapsed
    ∧ commit sEx (nft_evolve envEarly sEx "1" "bob") = sEx :=
  evolve_cooldown_error envEarly sEx "1" "bob" 1 [("1", mdEx)] mdEx "10" 10
    (by decide) (by decide) rfl (by decide) (by decide) (by decide) (by decide)

/-- C5: an evolve call by a caller who is not the token's current owner, on a
token whose cooldown has elapsed, fails with the ownership error and the
committed post-call state is exactly the pre-call state. -/
theorem evolve_non_owner_error (env : Env) (s : Contract) (token_id : TokenId)
    (receiver_id : AccountId) (n : Nat) (m : List (TokenId × TokenMetadata))
    (md : TokenMetadata) (ex : String) (evolve_time : Nat) (owner_id : AccountId)
    (hn : parse_u64 s.current_token_id = some n) (hb : n + 1 < 2 ^ 64)
    (hm : s.tokens.token_metadata_by_id = some m)
    (hmd : lookupAL m token_id = some md)
    (hex : md.extra = some ex)
    (hpt : parse_u64 ex = some evolve_time)
    (hcool : ¬ env.block_timestamp / 1000000 < evolve_time)
    (how : lookupAL s.tokens.owner_by_id token_id = some owner_id)
    (hno : owner_id ≠ env.predecessor_account_id) :
    nft_evolve env s token_id receiver_id = .error .notTokenOwner
    ∧ commit s (nft_evolve env s token_id receiver_id) = s := by
  have hb2 : n + 1 < 18446744073709551616 := by simpa using hb
  have h1 : nft_evolve env s token_id receiver_id = .error .notTokenOwner := by
    simp [nft_evolve, increment_token_id, hn, hb2, hm, hmd, hex, hpt, hcool, how, hno]
  exact ⟨h1, commit_of_error h1⟩

/-- C5 witness: `"mallory"` evolving `"alice"`'s token `"1"` after the
cooldown elapsed fails with the ownership error and commits nothing. -/
theorem evolve_non_owner_error_witness :
    nft_evolve envWrong sEx "1" "mallory" = .error .notTokenOwner
    ∧ commit sEx (nft_evolve envWrong sEx "1" "mallory") = sEx :=
  evolve_non_owner_error envWrong sEx "1" "mallory" 1 [("1", mdEx)] mdEx "10" 10 "alice"
    (by decide) (by decide) rfl (by decide) (by decide) (by decide) (by decide)
    (by decide) (by decide)

/-- C2 counterexample: token `"1"` of `sLvl3` is recorded at the terminal
level 3, yet the evolve call at time `0` fails with the cooldown error — not
the maximum-evolution-level error — because the cooldown gate runs before the
level is ever read. -/
theorem evolve_terminal_cooldown_first_cex :
    lookupAL sLvl3.level_per_token_id "1" = some 3
    ∧ nft_evolve envEarly sLvl3 "1" "alice" = .error .cooldownNotElapsed
    ∧ nft_evolve envEarly sLvl3 "1" "alice" ≠ .error .maxLevel := by decide

/-- C2 (amended): an evolve call on a token recorded at the terminal level 3
fails with the maximum-evolution-level error provided the checks that run
before the level is read all pass (live stamped token, cooldown elapsed,
caller is the owner, receiver has an owner-index set); when the cooldown has
not elapsed the call instead fails with the cooldown error.  In either case no
state mutation is committed: the committed post-call state is exactly the
pre-call state. -/
theorem evolve_terminal_max_level_error (env : Env) (s : Contract)
    (token_id : TokenId) (receiver_id : AccountId) (n : Nat)
    (m : List (TokenId × TokenMetadata)) (md : TokenMetadata) (ex : String)
    (evolve_time : Nat) (owner_id : AccountId)
    (tpo : List (AccountId × List TokenId)) (token_set : List TokenId)
    (metadata_set : Nat)
    (hn : parse_u64 s.current_token_id = some n) (hb : n + 1 < 2 ^ 64)
    (hm : s.tokens.token_metadata_by_id = some m)
    (hmd : lookupAL m token_id = some md)
    (hex : md.extra = some ex)
    (hpt : parse_u64 ex = some evolve_time)
    (hcool : ¬ env.block_timestamp / 1000000 < evolve_time)
    (how : lookupAL s.tokens.owner_by_id token_id = some owner_id)
    (hown : owner_id = env.predecessor_account_id)
    (htpo : s.tokens.tokens_per_owner = some tpo)
    (hrecv : lookupAL tpo receiver_id = some token_set)
    (hegg : lookupAL s.egg_per_token_id token_id = some metadata_set)
    (hlv : lookupAL s.level_per_token_id token_id = some 3) :
    nft_evolve env s token_id receiver_id = .error .maxLevel
    ∧ commit s (nft_evolve env s token_id receiver_id) = s := by
  have hb2 : n + 1 < 18446744073709551616 := by simpa using hb
  have h1 : nft_evolve env s token_id receiver_id = .error .maxLevel := by
    simp [nft_evolve, increment_token_id, hn, hb2, hm, hmd, hex, hpt, hcool, how,
      hown, htpo, hrecv, hegg, hlv, get_metadata_stage_four]
  exact ⟨h1, commit_of_error h1⟩

/-- C2 witness: evolving the terminal-level token `"1"` of `sLvl3` with every
earlier check passing fails with the maximum-level error and commits
nothing. -/
theorem evolve_terminal_max_level_error_witness :
    nft_evolve envLate sLvl3 "1" "alice" = .error .maxLevel
    ∧ commit sLvl3 (nft_evolve envLate sLvl3 "1" "alice") = sLvl3 :=
  evolve_terminal_max_level_error envLate sLvl3 "1" "alice" 1 [("1", mdEx)] mdEx
    "10" 10 "alice" [("alice", ["1"])] ["1"] 5
    (by decide) (by decide) rfl (by decide) (by decide) (by decide) (by decide)
    (by decide) (by decide) rfl (by decide) (by decide) (by decide)

/-- C3 counterexample: an evolve call with only 5 yocto attached (far below
the 1-NEAR requirement) on a token whose cooldown has not elapsed fails with
the cooldown error, not the payment error — the deposit check runs last. -/
theorem low_payment_non_payment_error_cex :
    envEarlyLow.attached_deposit < MINIMUM_EARLY_DEPOSIT
    ∧ nft_evolve envEarlyLow sEx "1" "alice" = .error .cooldownNotElapsed
    ∧ nft_evolve envEarlyLow sEx "1" "alice" ≠ .error .insufficientDeposit := by
  decide

/-- C3 (amended): a mint or evolve call with attached payment below the
required cost always fails and commits nothing; the failure is the payment
error itself whenever the call's earlier checks pass (for mint: a well-formed
counter, which always holds in reachable states; for evolve: live stamped
token, cooldown elapsed, caller is owner, receiver indexed, level below the
terminal stage, species index in catalog range) — an earlier failing
precondition reports its own error first.  In every failing case the
committed post-call state equals the pre-call state. -/
theorem payment_below_cost_behavior :
    (∀ (env : Env) (s : Contract) (receiver_id : AccountId) (n : Nat),
      parse_u64 s.current_token_id = some n → n + 1 < 2 ^ 64 →
      env.attached_deposit < MINIMUM_EARLY_DEPOSIT →
      nft_mint_egg env s receiver_id = .error .insufficientDeposit)
    ∧ (∀ (env : Env) (s : Contract) (token_id : TokenId) (receiver_id : AccountId)
        (n : Nat) (m : List (TokenId × TokenMetadata)) (md : TokenMetadata)
        (ex : String) (evolve_time : Nat) (owner_id : AccountId)
        (tpo : List (AccountId × List TokenId)) (token_set : List TokenId)
        (metadata_set old_level : Nat),
      parse_u64 s.current_token_id = some n → n + 1 < 2 ^ 64 →
      s.tokens.token_metadata_by_id = some m →
      lookupAL m token_id = some md →
      md.extra = some ex →
      parse_u64 ex = some evolve_time →
      ¬ env.block_timestamp / 1000000 < evolve_time →
      lookupAL s.tokens.owner_by_id token_id = some owner_id →
      owner_id = env.predecessor_account_id →
      s.tokens.tokens_per_owner = some tpo →
      lookupAL tpo receiver_id = some token_set →
      lookupAL s.egg_per_token_id token_id = some metadata_set →
      1 ≤ metadata_set → metadata_set ≤ 16 →
      lookupAL s.level_per_token_id token_id = some old_level → old_level ≤ 2 →
      env.attached_deposit < MINIMUM_EARLY_DEPOSIT →
      nft_evolve env s token_id receiver_id = .error .insufficientDeposit)
    ∧ (∀ (env : Env) (s : Contract) (receiver_id : AccountId) (e : Err),
        nft_mint_egg env s receiver_id = .error e →
        commit s (nft_mint_egg env s receiver_id) = s)
    ∧ (∀ (env : Env) (s : Contract) (token_id : TokenId) (receiver_id : AccountId)
        (e : Err),
        nft_evolve env s token_id receiver_id = .error e →
        commit s (nft_evolve env s token_id receiver_id) = s) := by
  refine ⟨?_, ?_, ?_, ?_⟩
  · intro env s receiver_id n hn hb hdep
    have hb2 : n + 1 < 18446744073709551616 := by simpa using hb
    have hset1 : 1 ≤ get_random_number env % 16 + 1 := by omega
    have hset16 : get_random_number env % 16 + 1 ≤ 16 := by
      have := Nat.mod_lt (get_random_number env) (show 0 < 16 by omega)
      omega
    simp [nft_mint_egg, increment_token_id, hn, hb2,
      get_metadata_stage_zero env hset1 hset16, refund_deposit_insufficient hdep]
  · intro env s token_id receiver_id n m md ex evolve_time owner_id tpo token_set
      metadata_set old_level hn hb hm hmd hex hpt hcool how hown htpo hrecv hegg
      hs1 hs16 hlv hlv2 hdep
    have hb2 : n + 1 < 18446744073709551616 := by simpa using hb
    interval_cases old_level
    · simp [nft_evolve, increment_token_id, hn, hb2, hm, hmd, hex, hpt, hcool,
        how, hown, htpo, hrecv, hegg, hlv, get_metadata_stage_one env hs1 hs16,
        refund_deposit_insufficient hdep]
    · simp [nft_evolve, increment_token_id, hn, hb2, hm, hmd, hex, hpt, hcool,
        how, hown, htpo, hrecv, hegg, hlv, get_metadata_stage_two env hs1 hs16,
        refund_deposit_insufficient hdep]
    · simp [nft_evolve, increment_token_id, hn, hb2, hm, hmd, hex, hpt, hcool,
        how, hown, htpo, hrecv, hegg, hlv, get_metadata_stage_three env hs1 hs16,
        refund_deposit_insufficient hdep]
  · intro env s receiver_id e h
    exact commit_of_error h
  · intro env s token_id receiver_id e h
    exact commit_of_error h

/-- C3 witness: a mint with 5 yocto attached fails with the payment error, and
an evolve with 5 yocto attached whose earlier checks all pass fails with the
payment error. -/
theorem payment_below_cost_behavior_witness :
    nft_mint_egg envEarlyLow sEx "carol" = .error .insufficientDeposit
    ∧ nft_evolve envLateLow sEx "1" "alice" = .error .insufficientDeposit :=
  ⟨payment_below_cost_behavior.1 envEarlyLow sEx "carol" 1
      (by decide) (by decide) (by decide),
   payment_below_cost_behavior.2.1 envLateLow sEx "1" "alice" 1 [("1", mdEx)]
      mdEx "10" 10 "alice" [("alice", ["1"])] ["1"] 5 0
      (by decide) (by decide) rfl (by decide) (by decide) (by decide) (by decide)
      (by decide) (by decide) rfl (by decide) (by decide) (by decide) (by decide)
      (by decide) (by decide) (by decide)⟩

/-- C1: evaluation at the failing input.  Evolving token `"1"` of `sEx`
succeeds and the new token `"2"` carries `level = 1` (old level + 1) and the
old species `5`, the old id is gone from the metadata map and from the
owner's index — but `nft_evolve` never removes the old id from the ownership
map, so `lookupOwner("1")` still returns `"alice"` after the call, contrary
to the claim that the old id is absent from the ledger's owner lookup. -/
theorem evolve_stale_owner_entry :
    (nft_evolve envLate sEx "1" "alice").isOk = true
    ∧ lookupAL sExAfter.tokens.owner_by_id "1" = some "alice"
    ∧ sExAfter.tokens.token_metadata_by_id.map (fun m => lookupAL m "1") = some none
    ∧ sExAfter.tokens.tokens_per_owner.map (fun t => (lookupAL t "alice").getD [])
        = some ["2"]
    ∧ lookupAL sExAfter.level_per_token_id "2" = some 1
    ∧ lookupAL sExAfter.egg_per_token_id "2" = some 5
    ∧ lookupAL sExAfter.tokens.owner_by_id "2" = some "alice" := by decide

/-- C7: evaluation at the failing input.  `nft_token` returns an absent result
for a never-allocated id and succeeds for a live token, but for the
evolved-away id `"1"` — whose ownership entry `nft_evolve` left behind while
removing the metadata entry — it panics on the metadata `unwrap` instead of
returning an absent result. -/
theorem nft_token_fails_on_evolved_id :
    nft_token sExAfter "1" = .error .notFound
    ∧ nft_token sExAfter "99" = .ok none
    ∧ (nft_token sEx "1").isOk = true := by decide

/-- C9: for a successful evolve the new token id is bound in the ownership
map and the owner index to the old token's validated owner — never to the
`receiver_id` argument when it differs from the owner — while `receiver_id`
only selects the owner-index set from which the old id is removed; and when
the receiver has no owner-index set the call (which would otherwise succeed)
fails. -/
theorem evolve_receiver_semantics (env : Env) (s : Contract) (token_id : TokenId)
    (receiver_id : AccountId) (n : Nat) (m : List (TokenId × TokenMetadata))
    (md : TokenMetadata) (ex : String) (evolve_time : Nat) (owner_id : AccountId)
    (tpo : List (AccountId × List TokenId))
    (hn : parse_u64 s.current_token_id = some n) (hb : n + 1 < 2 ^ 64)
    (hm : s.tokens.token_metadata_by_id = some m)
    (hmd : lookupAL m token_id = some md)
    (hex : md.extra = some ex)
    (hpt : parse_u64 ex = some evolve_time)
    (hcool : ¬ env.block_timestamp / 1000000 < evolve_time)
    (how : lookupAL s.tokens.owner_by_id token_id = some owner_id)
    (hown : owner_id = env.predecessor_account_id)
    (htpo : s.tokens.tokens_per_owner = some tpo) :
    (∀ (token_set : List TokenId) (metadata_set old_level : Nat),
      lookupAL tpo receiver_id = some token_set →
      lookupAL s.egg_per_token_id token_id = some metadata_set →
      1 ≤ metadata_set → metadata_set ≤ 16 →
      lookupAL s.level_per_token_id token_id = some old_level → old_level ≤ 2 →
      MINIMUM_EARLY_DEPOSIT ≤ env.attached_deposit →
      token_id ≠ natToString (n + 1) →
      (nft_evolve env s token_id receiver_id).isOk = true
      ∧ lookupAL (commit s (nft_evolve env s token_id receiver_id)).tokens.owner_by_id
          (natToString (n + 1)) = some owner_id
      ∧ (receiver_id ≠ owner_id →
          lookupAL (commit s (nft_evolve env s token_id receiver_id)).tokens.owner_by_id
            (natToString (n + 1)) ≠ some receiver_id)
      ∧ (∃ tpo2,
          (commit s (nft_evolve env s token_id receiver_id)).tokens.tokens_per_owner
            = some tpo2
          ∧ natToString (n + 1) ∈ (lookupAL tpo2 owner_id).getD []
          ∧ token_id ∉ (lookupAL tpo2 receiver_id).getD []))
    ∧ (lookupAL tpo receiver_id = none →
        nft_evolve env s token_id receiver_id = .error .notFound) := by
  have hb2 : n + 1 < 18446744073709551616 := by simpa using hb
  subst hown
  constructor
  · intro token_set metadata_set old_level hrecv hegg hs1 hs16 hlv hlv2 hdep hne
    have hev : nft_evolve env s token_id receiver_id = .ok
        { owner_id := s.owner_id
          tokens :=
            { owner_by_id :=
                insertAL s.tokens.owner_by_id (natToString (n + 1))
                  env.predecessor_account_id
              token_metadata_by_id :=
                some (insertAL (removeAL m token_id) (natToString (n + 1))
                  (stampedTemplate env (old_level + 1) metadata_set))
              tokens_per_owner :=
                some (insertAL
                  (insertAL tpo receiver_id (eraseElem token_set token_id))
                  env.predecessor_account_id
                  (setInsert
                    ((lookupAL
                      (insertAL tpo receiver_id (eraseElem token_set token_id))
                      env.predecessor_account_id).getD [])
                    (natToString (n + 1))))
              approvals_by_id :=
                s.tokens.approvals_by_id.map (fun x => removeAL x token_id)
              next_approval_id_by_id :=
                s.tokens.next_approval_id_by_id.map (fun x => removeAL x token_id) }
          metadata_per_type := s.metadata_per_type
          egg_per_token_id :=
            insertAL s.egg_per_token_id (natToString (n + 1)) metadata_set
          level_per_token_id :=
            insertAL (removeAL s.level_per_token_id token_id) (natToString (n + 1))
              (old_level + 1)
          metadata := s.metadata
          current_token_id := natToString (n + 1) } := by
      interval_cases old_level
      · simp [nft_evolve, increment_token_id, hn, hb2, hm, hmd, hex, hpt, hcool,
          how, htpo, hrecv, hegg, hlv, get_metadata_stage_one env hs1 hs16,
          refund_deposit_sufficient hdep]
      · simp [nft_evolve, increment_token_id, hn, hb2, hm, hmd, hex, hpt, hcool,
          how, htpo, hrecv, hegg, hlv, get_metadata_stage_two env hs1 hs16,
          refund_deposit_sufficient hdep]
      · simp [nft_evolve, increment_token_id, hn, hb2, hm, hmd, hex, hpt, hcool,
          how, htpo, hrecv, hegg, hlv, get_metadata_stage_three env hs1 hs16,
          refund_deposit_sufficient hdep]
    rw [hev]
    dsimp only [commit]
    refine ⟨rfl, lookupAL_insertAL_self _ _ _, ?_, ?_⟩
    · intro hr
      simp only [lookupAL_insertAL_self]
      exact fun hc => hr (Option.some.inj hc).symm
    · refine ⟨_, rfl, ?_, ?_⟩
      · simp only [lookupAL_insertAL_self, Option.getD_some]
        exact mem_setInsert_self _ _
      · by_cases hr : receiver_id = env.predecessor_account_id
        · subst hr
          simp only [lookupAL_insertAL_self, Option.getD_some, mem_setInsert,
            not_or]
          exact ⟨not_mem_eraseElem_self _ _, hne⟩
        · rw [lookupAL_insertAL_ne _ _ hr, lookupAL_insertAL_self]
          simp only [Option.getD_some]
          exact not_mem_eraseElem_self _ _
  · intro hrecv
    simp [nft_evolve, increment_token_id, hn, hb2, hm, hmd, hex, hpt, hcool, how,
      htpo, hrecv]

/-- `sEx` with a second owner-index set for `"bob"`, to exercise an evolve
whose `receiver_id` differs from the validated owner. -/
def sTwo : Contract :=
  { sEx with tokens :=
    { sEx.tokens with tokens_per_owner := some [("alice", ["1"]), ("bob", ["7"])] } }

/-- C9 witness: evolving `"alice"`'s token with `receiver_id = "bob"` binds
the new token `"2"` to `"alice"`, and evolving with the index-less receiver
`"carol"` fails. -/
theorem evolve_receiver_semantics_witness :
    lookupAL (commit sTwo (nft_evolve envLate sTwo "1" "bob")).tokens.owner_by_id
      (natToString (1 + 1)) = some "alice"
    ∧ nft_evolve envLate sTwo "1" "carol" = .error .notFound :=
  ⟨((evolve_receiver_semantics envLate sTwo "1" "bob" 1 [("1", mdEx)] mdEx "10" 10
      "alice" [("alice", ["1"]), ("bob", ["7"])] (by decide) (by decide) (by decide)
      (by decide) (by decide) (by decide) (by decide) (by decide) (by decide)
      (by decide)).1 ["7"] 5 0 (by decide) (by decide) (by decide) (by decide)
      (by decide) (by decide) (by decide) (by decide)).2.1,
   (evolve_receiver_semantics envLate sTwo "1" "carol" 1 [("1", mdEx)] mdEx "10" 10
      "alice" [("alice", ["1"]), ("bob", ["7"])] (by decide) (by decide) (by decide)
      (by decide) (by decide) (by decide) (by decide) (by decide) (by decide)
      (by decide)).2 (by decide)⟩

theorem nft_mint_egg_ok_current {env : Env} {s s2 : Contract} {r : AccountId} {n : Nat}
    (hn : parse_u64 s.current_token_id = some n)
    (h : nft_mint_egg env s r = .ok s2) :
    s2.current_token_id = natToString (n + 1) ∧ n + 1 < 2 ^ 64 := by
  have hs1 : 1 ≤ get_random_number env % 16 + 1 := by omega
  have hs16 : get_random_number env % 16 + 1 ≤ 16 := by
    have := Nat.mod_lt (get_random_number env) (show 0 < 16 by omega)
    omega
  by_cases hb : n + 1 < 2 ^ 64
  · have hb2 : n + 1 < 18446744073709551616 := by simpa using hb
    rcases hre : refund_deposit env with e | v
    · simp [nft_mint_egg, increment_token_id, hn, hb2,
        get_metadata_stage_zero env hs1 hs16, hre] at h
    · simp only [nft_mint_egg, increment_token_id, hn, hb,
        get_metadata_stage_zero env hs1 hs16] at h
      simp only [hre] at h
      have h2 := Except.ok.inj h
      subst h2
      refine ⟨?_, hb⟩
      split <;> rfl
  · have hb2 : ¬ n + 1 < 18446744073709551616 := by simpa using hb
    simp [nft_mint_egg, increment_token_id, hn, hb2] at h

theorem runMints_spec (ps : List (Env × AccountId)) :
    ∀ (s sf : Contract) (ids : List TokenId) (n : Nat),
    parse_u64 s.current_token_id = some n →
    runMints s ps = some (sf, ids) →
    ids = (List.range' (n + 1) ps.length).map natToString
    ∧ parse_u64 sf.current_token_id = some (n + ps.length)
    ∧ ∀ k ∈ List.range' (n + 1) ps.length, k < 2 ^ 64 := by
  induction ps with
  | nil =>
    intro s sf ids n hn h
    simp only [runMints, Option.some.injEq, Prod.mk.injEq] at h
    obtain ⟨hs, hi⟩ := h
    subst hs
    subst hi
    simpa using hn
  | cons p ps ih =>
    intro s sf ids n hn h
    obtain ⟨e, r⟩ := p
    simp only [runMints] at h
    cases hmint : nft_mint_egg e s r with
    | error err => simp only [hmint] at h; exact absurd h (by simp)
    | ok s1 =>
      simp only [hmint] at h
      cases hrun : runMints s1 ps with
      | none => simp only [hrun] at h; exact absurd h (by simp)
      | some out =>
        obtain ⟨s2, ids2⟩ := out
        simp only [hrun] at h
        simp only [Option.some.injEq, Prod.mk.injEq] at h
        obtain ⟨hs2, hids⟩ := h
        obtain ⟨hcur, hbnd⟩ := nft_mint_egg_ok_current hn hmint
        have hn1 : parse_u64 s1.current_token_id = some (n + 1) := by
          rw [hcur]; exact parse_natToString hbnd
        obtain ⟨h1, h2, h3⟩ := ih s1 s2 ids2 (n + 1) hn1 hrun
        subst hs2
        refine ⟨?_, ?_, ?_⟩
        · rw [← hids, h1, hcur, List.length_cons, List.range'_succ, List.map_cons]
        · rw [List.length_cons, show n + (ps.length + 1) = n + 1 + ps.length by omega]
          exact h2
        · intro k hk
          rw [List.length_cons, List.range'_succ] at hk
          rcases List.mem_cons.mp hk with hk | hk
          · subst hk; exact hbnd
          · exact h3 k hk

/-- C6: every successful mint sequence from a freshly initialized contract
allocates the token ids `1, 2, ..., k` in order — pairwise distinct and
strictly increasing as unsigned integers — the counter after the sequence
reads `k`, and each successful mint from a state whose counter reads `n`
allocates exactly `n + 1` (the allocated id of a mint is the post-state
`current_token_id`). -/
theorem mint_ids_unique_increasing (owner : AccountId) (cm : NFTContractMetadata)
    (ps : List (Env × AccountId))
    (h : (runMints (Contract.new owner cm) ps).isSome = true) :
    (mintRun owner cm ps).2 = (List.range' 1 ps.length).map natToString
    ∧ (mintRun owner cm ps).2.map parse_u64 = (List.range' 1 ps.length).map some
    ∧ List.Pairwise (· < ·) (List.range' 1 ps.length)
    ∧ (mintRun owner cm ps).2.Pairwise (· ≠ ·)
    ∧ parse_u64 (mintRun owner cm ps).1.current_token_id = some ps.length
    ∧ (∀ (e : Env) (s s2 : Contract) (r : AccountId) (k : Nat),
        parse_u64 s.current_token_id = some k → nft_mint_egg e s r = .ok s2 →
        s2.current_token_id = natToString (k + 1)) := by
  obtain ⟨out, hout⟩ := Option.isSome_iff_exists.mp h
  obtain ⟨sf, ids⟩ := out
  have hn0 : parse_u64 (Contract.new owner cm).current_token_id = some 0 := by
    show parse_u64 "0" = some 0
    decide
  obtain ⟨h1, h2, h3⟩ := runMints_spec ps (Contract.new owner cm) sf ids 0 hn0 hout
  have hmr : mintRun owner cm ps = (sf, ids) := by
    simp [mintRun, hout]
  rw [hmr]
  simp only [Nat.zero_add] at h1 h2 h3
  refine ⟨h1, ?_, List.pairwise_lt_range' 1 ps.length, ?_, h2, ?_⟩
  · rw [h1, List.map_map]
    exact List.map_congr_left (fun a ha => parse_natToString (h3 a ha))
  · rw [h1]
    refine (List.pairwise_map).mpr ?_
    refine List.Pairwise.imp_of_mem ?_ (List.pairwise_lt_range' 1 ps.length)
    intro a b hma hmb hab hcon
    exact Nat.ne_of_lt hab (natToString_injOn (h3 a hma) (h3 b hmb) hcon)
  · intro e s s2 r k hk hmint
    exact (nft_mint_egg_ok_current hk hmint).1

/-- A concrete two-mint sequence with 1 NEAR attached to each call. -/
def w6ps : List (Env × AccountId) := [(envLate, "bob"), (envLate, "bob")]

/-- C6 witness: two successful mints from a fresh contract allocate the
distinct ids `"1"` and `"2"`. -/
theorem mint_ids_unique_increasing_witness :
    (mintRun "own" cm0 w6ps).2 = (List.range' 1 w6ps.length).map natToString
    ∧ (mintRun "own" cm0 w6ps).2.Pairwise (· ≠ ·) :=
  ⟨(mint_ids_unique_increasing "own" cm0 w6ps (by decide)).1,
   (mint_ids_unique_increasing "own" cm0 w6ps (by decide)).2.2.2.1⟩
